import Mathlib

/-!
AudioGridder, `Common/Source/Utils.hpp`.

A shallow embedding of the helpers of `Utils.hpp` (namespace `e47`): the log tag
formatting of `LogTag`, the value class `ServerInfo`, the watchdog join
`waitForThreadAndLog` and the bridge `callOnMessageThread`, followed by the
properties established about them.

Conventions of the embedding

* a JUCE `String` is a Lean `String`; `s << x` is `s ++ x`, and appending an `int`
  appends its decimal rendering `toString (x : Int)`;
* C++ `int` values are `Int`; the `float` load is a `Rat`; a JUCE `Time` is the
  number of milliseconds it holds, an `Int`;
* every read of the clock (`Time::getCurrentTime()`) is an explicit argument;
* a `uint32` is a `Nat` taken modulo `2^32`;
* `waitForThreadAndLog` is given the answers of the thread and of the millisecond counter
  and yields the list of the calls it makes; `callOnMessageThread` is a step function on
  the state shared by the caller and the message thread.
-/

namespace e47

/-! ## JUCE string helpers used by the code -/

/-- Cut a text at every `':'`; the pieces between the colons are kept, empty ones too. -/
def splitAtColons : List Char → List (List Char)
  | [] => [[]]
  | c :: cs =>
    if c = ':' then [] :: splitAtColons cs
    else
      match splitAtColons cs with
      | [] => [[c]]
      | t :: ts => (c :: t) :: ts

/-- Modelled from the spec: `StringArray::fromTokens (s, ":", "")` is JUCE library code
that is not among the sources. The specification says the text is tokenized on `:`;
as in JUCE an empty text has no token at all, and no quote characters are in use. -/
def fromTokens (s : String) : List String :=
  if s.data = [] then [] else (splitAtColons s.data).map String.mk

/-- Value of a run of decimal digits, most significant digit first. -/
def digitsValue (ds : List Char) : Nat :=
  ds.foldl (fun acc c => 10 * acc + (c.toNat - 48)) 0

/-- A non-empty run of the characters `'0'`..`'9'`. -/
def isDigitRun (ds : List Char) : Bool :=
  !ds.isEmpty && ds.all Char.isDigit

/-- The text is a decimal integer: an optional `'-'` followed by one or more digits. -/
def isDecimalInteger (t : String) : Bool :=
  match t.data with
  | '-' :: ds => isDigitRun ds
  | ds => isDigitRun ds

/-- Modelled from the spec: `String::getIntValue()` is JUCE library code that is not
among the sources. The specification says the id text is "parsed as integer, malformed
text silently becomes 0": a decimal integer yields its value, any other text yields 0.
The 32-bit range of the result is not modelled. -/
def getIntValue (t : String) : Int :=
  if isDecimalInteger t then
    match t.data with
    | '-' :: ds => -(digitsValue ds : Int)
    | ds => (digitsValue ds : Int)
  else 0

/-- The 32-bit range of a C++ `int`. -/
def isInt32 (n : Int) : Prop := -2147483648 ≤ n ∧ n ≤ 2147483647

/-! ## `LogTag` -/

/-- The `while (--digits > 0)` loop of `getStrWithLeadingZero`; `k` is the value of
`digits` after the decrement, so the body runs for `k, k-1, ..., 1`. The C++ test
`n < pow(10, digits)` compares exactly for an `int` n: `pow` is exact up to `10^22`
and beyond `10^9` every `int` is below it. -/
def LogTag.leadingZeros (n : Int) : Nat → String → String
  | 0, s => s
  | k + 1, s => LogTag.leadingZeros n k (if n < 10 ^ (k + 1) then s ++ "0" else s)

/-- `LogTag::getStrWithLeadingZero (int n, int digits = 2)`. -/
def LogTag.getStrWithLeadingZero (n : Int) (digits : Int) : String :=
  LogTag.leadingZeros n (digits - 1).toNat "" ++ toString n

/-- The number of thresholds `10^k`, for `k` in `1..digits-1`, that `n` does not reach. -/
def LogTag.thresholdsNotReached (n : Int) (digits : Int) : Nat :=
  ((List.range' 1 (digits - 1).toNat).filter (fun k => decide (n < 10 ^ k))).length

/-- The text `HH`, `MM` or `SS` of the tag format: the two decimal digits of a number
below 100, tens first. -/
def LogTag.twoDigits (x : Nat) : String :=
  ⟨[Nat.digitChar (x / 10), Nat.digitChar (x % 10)]⟩

/-- The text `mmm` of the tag format: the three decimal digits of a number below 1000,
hundreds first. -/
def LogTag.threeDigits (x : Nat) : String :=
  ⟨[Nat.digitChar (x / 100), Nat.digitChar (x / 10 % 10), Nat.digitChar (x % 10)]⟩

/-- What `getTimeStr` reads from `Time::getCurrentTime()`: the results of `getHours()`,
`getMinutes()`, `getSeconds()` and `getMilliseconds()`. -/
structure ClockReading where
  hours : Int
  minutes : Int
  seconds : Int
  milliseconds : Int

/-- `LogTag::getTimeStr()`, with the clock reading as argument. -/
def LogTag.getTimeStr (now : ClockReading) : String :=
  let H := LogTag.getStrWithLeadingZero now.hours 2
  let M := LogTag.getStrWithLeadingZero now.minutes 2
  let S := LogTag.getStrWithLeadingZero now.seconds 2
  let m := LogTag.getStrWithLeadingZero now.milliseconds 3
  "" ++ H ++ ":" ++ M ++ ":" ++ S ++ "." ++ m

/-- `LogTag::getTaggedStr (name, ptr)`, with the clock reading as argument. -/
def LogTag.getTaggedStr (now : ClockReading) (name ptr : String) : String :=
  "" ++ LogTag.getTimeStr now ++ "|" ++ name ++ "|" ++ ptr

/-! ## `ServerInfo` -/

/-- The data members of `ServerInfo`. -/
structure ServerInfo where
  m_host : String
  m_name : String
  m_id : Int
  m_load : Rat
  m_updated : Int

namespace ServerInfo

/-- `void refresh()`: `m_updated = Time::getCurrentTime()`. -/
def refresh (self : ServerInfo) (now : Int) : ServerInfo :=
  { self with m_updated := now }

/-- `ServerInfo (const String& s)`: the constructor from a canonical string. The string
members start empty and `m_updated` starts as the default `Time` (0). -/
def fromString (s : String) (now : Int) : ServerInfo :=
  let hostParts := fromTokens s
  let self : ServerInfo :=
    if hostParts.length > 1 then
      { m_host := hostParts.getD 0 ""
        m_id := getIntValue (hostParts.getD 1 "")
        m_name := if hostParts.length > 2 then hostParts.getD 2 "" else ""
        m_load := 0
        m_updated := 0 }
    else
      { m_host := s, m_id := 0, m_name := "", m_load := 0, m_updated := 0 }
  self.refresh now

/-- `ServerInfo (const String& host, const String& name, int id, float load)`. -/
def fromFields (host name : String) (id : Int) (load : Rat) (now : Int) : ServerInfo :=
  refresh { m_host := host, m_name := name, m_id := id, m_load := load, m_updated := 0 } now

/-- `ServerInfo (const ServerInfo& other)`: the copy constructor. The source object is
bound by const reference; the result pairs it, as it is after the call, with the new
object. -/
def copy (other : ServerInfo) (now : Int) : ServerInfo × ServerInfo :=
  (other,
   refresh { m_host := other.m_host, m_name := other.m_name, m_id := other.m_id,
             m_load := other.m_load, m_updated := 0 } now)

/-- `bool operator== (const ServerInfo& other) const`. -/
def eq (self other : ServerInfo) : Bool :=
  self.m_host == other.m_host && self.m_name == other.m_name && self.m_id == other.m_id

/-- `String getHostAndID() const`. -/
def getHostAndID (self : ServerInfo) : String :=
  let ret := self.m_host
  if self.m_id > 0 then ret ++ ":" ++ toString self.m_id else ret

/-- `String getNameAndID() const`. -/
def getNameAndID (self : ServerInfo) : String :=
  let ret := self.m_name
  if self.m_id > 0 then ret ++ ":" ++ toString self.m_id else ret

/-- `String serialize() const`. -/
def serialize (self : ServerInfo) : String :=
  let ret := self.m_host
  ret ++ ":" ++ toString self.m_id ++ ":" ++ self.m_name

end ServerInfo

/-- `void refresh (float load)`: `refresh(); m_load = load;`. -/
def ServerInfo.refreshLoad (self : ServerInfo) (load : Rat) (now : Int) : ServerInfo :=
  { self.refresh now with m_load := load }

/-- `String toString() const`. How `<<` writes a `float` is JUCE library code that is not
among the sources; it is the argument `floatText`. -/
def ServerInfo.toString (floatText : Rat → String) (self : ServerInfo) : String :=
  let ret := "Server("
  let ret := ret ++ "name=" ++ self.m_name ++ ", "
  let ret := ret ++ "host=" ++ self.m_host ++ ", "
  let ret := ret ++ "id=" ++ ToString.toString self.m_id
  let ret := if self.m_load > 0 then ret ++ ", load=" ++ floatText self.m_load else ret
  ret ++ ")"

/-- The member functions that the class body of `ServerInfo` declares for a constructed
object. -/
inductive ServerInfo.Member where
  | opEq (other : ServerInfo)
  | getHost
  | getName
  | getID
  | getLoad
  | getHostAndID
  | getNameAndID
  | toString
  | serialize
  | getUpdated
  | refresh
  | refreshLoad (load : Rat)

/-- The object after a call of a member function at clock reading `now`. All members but
the two `refresh` overloads are declared `const` and leave the object as it is. -/
def ServerInfo.call (self : ServerInfo) (m : ServerInfo.Member) (now : Int) : ServerInfo :=
  match m with
  | .refresh => self.refresh now
  | .refreshLoad load => self.refreshLoad load now
  | _ => self

/-! ## `waitForThreadAndLog` -/

/-- What `waitForThreadAndLog` does with its collaborators, in the order it does it: a call
`t->waitForThreadToExit (timeOut)` with its result, a call `Time::getMillisecondCounter()`
with its result, and a line written by `logln`. -/
inductive WaitEvent where
  | waitForThreadToExit (timeOutMilliseconds : Int) (exited : Bool)
  | getMillisecondCounter (value : Nat)
  | logln (line : String)
  deriving DecidableEq

/-- The event is a line written by `logln`. -/
def WaitEvent.isLogln : WaitEvent → Bool
  | .logln _ => true
  | _ => false

/-- What the collaborators answer during one call of `waitForThreadAndLog`: the thread
name, the result of the `i`-th call of `waitForThreadToExit`, the millisecond count at the
`i`-th call of `getMillisecondCounter` (the call returns it as a `uint32`), and the text of
`tag->getLogTag()` at the `i`-th pass through the loop body. -/
structure WaitEnv where
  threadName : String
  exited : Nat → Bool
  counter : Nat → Nat
  logTag : Nat → String

/-- The `uint32` returned by the `i`-th call of `Time::getMillisecondCounter()`. -/
def WaitEnv.reading (env : WaitEnv) (i : Nat) : Nat :=
  env.counter i % 4294967296

/-- `Time::getMillisecondCounter() + (uint32) millisUntilWarning`, a `uint32` sum. -/
def warnTime (env : WaitEnv) (millisUntilWarning : Int) : Nat :=
  (env.reading 0 + (millisUntilWarning % 4294967296).toNat) % 4294967296

/-- The line `logln` writes in the loop body: the tag in brackets, then the message. -/
def warningLine (env : WaitEnv) (i : Nat) : String :=
  "[" ++ env.logTag i ++ "] " ++
    ("warning: waiting for thread " ++ env.threadName ++ " to finish")

/-- The `while (!t->waitForThreadToExit (1000))` loop, started at its `i`-th pass, with at
most `fuel` passes; `none` when the loop is still running after `fuel` passes. -/
def waitLoop (env : WaitEnv) (warnTime : Nat) : Nat → Nat → Option (List WaitEvent)
  | 0, _ => none
  | fuel + 1, i =>
    if env.exited i then
      some [WaitEvent.waitForThreadToExit 1000 true]
    else
      let now := env.reading (i + 1)
      let logged := if now > warnTime then [WaitEvent.logln (warningLine env i)] else []
      (waitLoop env warnTime fuel (i + 1)).map fun rest =>
        [WaitEvent.waitForThreadToExit 1000 false, WaitEvent.getMillisecondCounter now] ++
          logged ++ rest

/-- `waitForThreadAndLog (LogTag* tag, Thread* t, int millisUntilWarning = 3000)`: the
events of the call, or `none` when it has not returned within `fuel` passes of the loop. -/
def waitForThreadAndLog (env : WaitEnv) (millisUntilWarning : Int) (fuel : Nat) :
    Option (List WaitEvent) :=
  if millisUntilWarning > -1 then
    let warnTime := warnTime env millisUntilWarning
    (waitLoop env warnTime fuel 0).map fun rest =>
      WaitEvent.getMillisecondCounter (env.reading 0) :: rest
  else
    some [WaitEvent.waitForThreadToExit (-1) (env.exited 0)]

/-- The warning schedule of the specification: the failed poll `j` is followed by a warning
exactly when the counter read after it is greater than the deadline. -/
def warnsAtPoll (env : WaitEnv) (warningAfterMs : Int) (j : Nat) : Bool :=
  decide (env.reading (j + 1) > warnTime env warningAfterMs)

/-- The events of the failed poll `j` according to the specification. -/
def failedPoll (env : WaitEnv) (warningAfterMs : Int) (j : Nat) : List WaitEvent :=
  [WaitEvent.waitForThreadToExit 1000 false,
   WaitEvent.getMillisecondCounter (env.reading (j + 1))] ++
    (if warnsAtPoll env warningAfterMs j then [WaitEvent.logln (warningLine env j)] else [])

/-- The events of `n` failed polls, numbered from `j`, and of the poll that observes the
termination, according to the specification. -/
def scheduleFrom (env : WaitEnv) (warningAfterMs : Int) : Nat → Nat → List WaitEvent
  | 0, _ => [WaitEvent.waitForThreadToExit 1000 true]
  | n + 1, j => failedPoll env warningAfterMs j ++ scheduleFrom env warningAfterMs n (j + 1)

/-- The events of a call with `n` failed polls according to the specification: the counter
is read at entry, then come the polls. -/
def schedule (env : WaitEnv) (warningAfterMs : Int) (n : Nat) : List WaitEvent :=
  WaitEvent.getMillisecondCounter (env.reading 0) :: scheduleFrom env warningAfterMs n 0

/-- The thread of the specification's example near a wrap of the counter: the counter is
at `2^32 - 500` at entry and advances 1000 per poll, the third poll sees the thread gone. -/
def wrapEnv : WaitEnv :=
  { threadName := "worker"
    exited := fun i => decide (2 ≤ i)
    counter := fun i => 4294966796 + 1000 * i
    logTag := fun _ => "tag" }

/-- A thread entered with the counter at `2^32 - 2500`; the counter advances 1000 per
poll and the third poll sees the thread gone. -/
def earlyEnv : WaitEnv :=
  { threadName := "worker"
    exited := fun i => decide (2 ≤ i)
    counter := fun i => 4294964796 + 1000 * i
    logTag := fun _ => "tag" }

/-- A thread entered with the counter at 5000; the counter advances 1000 per poll and the
sixth poll sees the thread gone. -/
def slowEnv : WaitEnv :=
  { threadName := "worker"
    exited := fun i => decide (5 ≤ i)
    counter := fun i => 5000 + 1000 * i
    logTag := fun _ => "tag" }

/-! ## `callOnMessageThread` -/

namespace callOnMessageThread

/-- Where the calling thread is in the body of `callOnMessageThread`: before
`MessageManager::callAsync`, before the construction of the `unique_lock`, holding the lock
in front of the test of `done` in `cv.wait`, asleep in `cv.wait` with the lock released, and
after the return. -/
inductive CallerPc where
  | callAsync
  | lock
  | wait
  | blocked
  | returned
  deriving DecidableEq

/-- Where the message thread is in the lambda handed to `callAsync`: not in it, before the
`lock_guard`, before `fn()`, before `done = true`, before `cv.notify_one()`, and before the
release of the lock at the end of the lambda. -/
inductive WrapperPc where
  | idle
  | lock
  | fn
  | setDone
  | notify
  | unlock
  deriving DecidableEq

/-- Who holds `mtx`. -/
inductive Owner where
  | caller
  | wrapper
  deriving DecidableEq

/-- What the scheduler lets happen next: a step of the code of the caller, a step of the
message loop (taking the lambda from its queue and running it), or a spurious wake-up of
`cv.wait`. -/
inductive Action where
  | caller
  | messageLoop
  | spuriousWakeup
  deriving DecidableEq

/-- The state of one call: the two program points, whether the lambda is in the queue of
the message thread, the owner of `mtx`, the flag `done`, how many times `fn` has run, and
the memory `fn` works on. -/
structure State (Mem : Type) where
  caller : CallerPc
  wrapper : WrapperPc
  queued : Bool
  mutex : Option Owner
  done : Bool
  fnRuns : Nat
  mem : Mem

/-- The state at the entry of `callOnMessageThread`: `done = false`, nothing queued. -/
def init {Mem : Type} (mem0 : Mem) : State Mem :=
  { caller := .callAsync, wrapper := .idle, queued := false, mutex := none, done := false,
    fnRuns := 0, mem := mem0 }

/-- One step. `onMessageThread` says that the caller is the message thread itself; the
message loop then takes nothing from its queue before the caller has returned to it. A
step that cannot be taken (a lock that is held, a sleeping thread) leaves the state as it
is. -/
def step {Mem : Type} (fn : Mem → Mem) (onMessageThread : Bool) (a : Action)
    (s : State Mem) : State Mem :=
  match a with
  | .caller =>
    match s.caller with
    | .callAsync => { s with queued := true, caller := .lock }
    | .lock => if s.mutex = none then { s with mutex := some .caller, caller := .wait } else s
    | .wait =>
      if s.done then { s with mutex := none, caller := .returned }
      else { s with mutex := none, caller := .blocked }
    | .blocked => s
    | .returned => s
  | .spuriousWakeup => if s.caller = .blocked then { s with caller := .lock } else s
  | .messageLoop =>
    match s.wrapper with
    | .idle =>
      if s.queued ∧ (onMessageThread = true → s.caller = .returned) then
        { s with queued := false, wrapper := .lock }
      else s
    | .lock => if s.mutex = none then { s with mutex := some .wrapper, wrapper := .fn } else s
    | .fn => { s with mem := fn s.mem, fnRuns := s.fnRuns + 1, wrapper := .setDone }
    | .setDone => { s with done := true, wrapper := .notify }
    | .notify =>
      { s with caller := if s.caller = .blocked then .lock else s.caller, wrapper := .unlock }
    | .unlock => { s with mutex := none, wrapper := .idle }

/-- The state after a schedule, a list of actions taken in order. -/
def run {Mem : Type} (fn : Mem → Mem) (onMessageThread : Bool) :
    List Action → State Mem → State Mem
  | [], s => s
  | a :: rest, s => run fn onMessageThread rest (step fn onMessageThread a s)

/-- A schedule that lets the caller run, then the message loop, then the caller again. -/
def fairSchedule : List Action :=
  [.caller, .caller, .caller, .messageLoop, .messageLoop, .messageLoop, .messageLoop,
   .messageLoop, .messageLoop, .caller, .caller]

/-- The lambda has passed `fn()`. -/
def State.ranFn {Mem : Type} (s : State Mem) : Bool :=
  s.wrapper = .setDone || s.wrapper = .notify || s.wrapper = .unlock || s.done

/-- What holds in every state of a call made from another thread than the message thread. -/
def Inv {Mem : Type} (fn : Mem → Mem) (mem0 : Mem) (s : State Mem) : Prop :=
  s.fnRuns = (if s.ranFn then 1 else 0) ∧
  s.mem = (if s.ranFn then fn mem0 else mem0) ∧
  (s.done = true → (s.wrapper = .notify ∨ s.wrapper = .unlock ∨ s.wrapper = .idle) ∧
    s.queued = false) ∧
  (s.wrapper = .notify ∨ s.wrapper = .unlock → s.done = true) ∧
  (s.wrapper ≠ .idle → s.queued = false) ∧
  (s.mutex = some .wrapper ↔
    s.wrapper = .fn ∨ s.wrapper = .setDone ∨ s.wrapper = .notify ∨ s.wrapper = .unlock) ∧
  (s.mutex = some .caller ↔ s.caller = .wait) ∧
  (s.caller = .callAsync → s.wrapper = .idle ∧ s.queued = false ∧ s.done = false) ∧
  (s.caller = .returned → s.done = true ∧ s.wrapper = .idle) ∧
  (s.caller ≠ .callAsync → s.wrapper = .idle → s.queued = false → s.done = true) ∧
  (s.caller = .blocked → s.wrapper ≠ .unlock ∧ (s.wrapper = .idle → s.queued = true))

/-- What holds in every state of a call made from the message thread itself. -/
def InvSelf {Mem : Type} (mem0 : Mem) (s : State Mem) : Prop :=
  s.wrapper = .idle ∧ s.done = false ∧ s.fnRuns = 0 ∧ s.mem = mem0 ∧ s.caller ≠ .returned

end callOnMessageThread

/-! ## Decimal rendering of numbers -/

theorem toDigitsCore_append (f n : Nat) (ds : List Char) :
    Nat.toDigitsCore 10 f n ds = Nat.toDigitsCore 10 f n [] ++ ds := by
  induction f generalizing n ds with
  | zero => simp [Nat.toDigitsCore]
  | succ f ih =>
    simp only [Nat.toDigitsCore]
    split
    · simp
    · rw [ih, ih (n / 10) [_]]; simp

theorem toDigitsCore_fuel (f g n : Nat) (hf : n < f) (hg : n < g) (ds : List Char) :
    Nat.toDigitsCore 10 f n ds = Nat.toDigitsCore 10 g n ds := by
  induction f generalizing g n ds with
  | zero => omega
  | succ f ih =>
    cases g with
    | zero => omega
    | succ g =>
      simp only [Nat.toDigitsCore]
      split
      · rfl
      · apply ih <;> omega

theorem toDigits_lt (n : Nat) (h : n < 10) : Nat.toDigits 10 n = [Nat.digitChar n] := by
  have h0 : n / 10 = 0 := by omega
  have h1 : n % 10 = n := by omega
  simp [Nat.toDigits, Nat.toDigitsCore, h0, h1]

theorem toDigits_ge (n : Nat) (h : 10 ≤ n) :
    Nat.toDigits 10 n = Nat.toDigits 10 (n / 10) ++ [Nat.digitChar (n % 10)] := by
  have h0 : ¬ n / 10 = 0 := by omega
  have e : Nat.toDigitsCore 10 (n + 1) n [] =
      Nat.toDigitsCore 10 n (n / 10) [Nat.digitChar (n % 10)] := by
    simp [Nat.toDigitsCore, h0]
  rw [Nat.toDigits, e, toDigitsCore_append,
    toDigitsCore_fuel n (n / 10 + 1) (n / 10) (by omega) (by omega)]
  rfl

theorem digitChar_isDigit (d : Nat) (h : d < 10) : (Nat.digitChar d).isDigit = true := by
  interval_cases d <;> decide

theorem digitChar_toNat (d : Nat) (h : d < 10) : (Nat.digitChar d).toNat - 48 = d := by
  interval_cases d <;> decide

theorem toDigits_ne_nil (n : Nat) : Nat.toDigits 10 n ≠ [] := by
  by_cases h : n < 10
  · simp [toDigits_lt n h]
  · simp [toDigits_ge n (by omega)]

theorem toDigits_all_isDigit (n : Nat) : ∀ c ∈ Nat.toDigits 10 n, c.isDigit = true := by
  induction n using Nat.strong_induction_on with
  | _ n ih =>
    by_cases h : n < 10
    · simp [toDigits_lt n h, digitChar_isDigit n h]
    · rw [toDigits_ge n (by omega)]
      intro c hc
      rcases List.mem_append.mp hc with hc | hc
      · exact ih (n / 10) (by omega) c hc
      · simp at hc
        rw [hc]; exact digitChar_isDigit _ (by omega)

theorem digitsValue_append (l : List Char) (c : Char) :
    digitsValue (l ++ [c]) = 10 * digitsValue l + (c.toNat - 48) := by
  simp [digitsValue, List.foldl_append]

theorem digitsValue_toDigits (n : Nat) : digitsValue (Nat.toDigits 10 n) = n := by
  induction n using Nat.strong_induction_on with
  | _ n ih =>
    by_cases h : n < 10
    · simp [toDigits_lt n h, digitsValue, digitChar_toNat n h]
    · rw [toDigits_ge n (by omega), digitsValue_append, ih (n / 10) (by omega),
        digitChar_toNat _ (by omega)]
      omega

theorem toDigits_length_le_iff (n k : Nat) (hk : 1 ≤ k) :
    (Nat.toDigits 10 n).length ≤ k ↔ n < 10 ^ k := by
  induction n using Nat.strong_induction_on generalizing k with
  | _ n ih =>
    by_cases h : n < 10
    · have : 10 ^ 1 ≤ 10 ^ k := Nat.pow_le_pow_right (by omega) hk
      simp [toDigits_lt n h]
      omega
    · rw [toDigits_ge n (by omega)]
      simp only [List.length_append, List.length_singleton]
      obtain ⟨j, rfl⟩ : ∃ j, k = j + 1 := ⟨k - 1, by omega⟩
      by_cases hj : j = 0
      · subst hj
        have := List.length_pos.mpr (toDigits_ne_nil (n / 10))
        constructor
        · intro h1; omega
        · intro h1; simp at h1; omega
      · have := ih (n / 10) (by omega) j (by omega)
        rw [Nat.add_le_add_iff_right, this, pow_succ, Nat.div_lt_iff_lt_mul (by omega)]

theorem toString_ofNat_data (m : Nat) : (toString (m : Int)).data = Nat.toDigits 10 m := rfl

theorem toString_negSucc_data (m : Nat) :
    (toString (Int.negSucc m)).data = '-' :: Nat.toDigits 10 (m + 1) := rfl

theorem isDigitRun_toDigits (m : Nat) : isDigitRun (Nat.toDigits 10 m) = true := by
  have h1 := toDigits_ne_nil m
  have h2 := toDigits_all_isDigit m
  simp only [isDigitRun, Bool.and_eq_true, Bool.not_eq_true', List.all_eq_true]
  refine ⟨?_, h2⟩
  cases h : Nat.toDigits 10 m with
  | nil => exact absurd h h1
  | cons c cs => rfl

theorem toDigits_head_ne_minus (m : Nat) (ds : List Char) : Nat.toDigits 10 m ≠ '-' :: ds := by
  intro h
  have := toDigits_all_isDigit m '-' (by rw [h]; exact List.mem_cons_self _ _)
  exact absurd this (by decide)

theorem colon_not_mem_toDigits (m : Nat) : ':' ∉ Nat.toDigits 10 m := by
  intro h
  exact absurd (toDigits_all_isDigit m ':' h) (by decide)

/-- The decimal rendering of an `int` contains no colon. -/
theorem colon_not_mem_toString (n : Int) : ':' ∉ (toString n).data := by
  cases n with
  | ofNat m => exact colon_not_mem_toDigits m
  | negSucc m =>
    rw [toString_negSucc_data]
    intro h
    rcases List.mem_cons.mp h with h | h
    · exact absurd h (by decide)
    · exact colon_not_mem_toDigits _ h

/-- Reading back the decimal rendering of an `int` gives the `int`. -/
theorem getIntValue_toString (n : Int) : getIntValue (toString n) = n := by
  cases n with
  | ofNat m =>
    have hd : (toString (Int.ofNat m)).data = Nat.toDigits 10 m := rfl
    have hdec : isDecimalInteger (toString (Int.ofNat m)) = true := by
      unfold isDecimalInteger
      rw [hd]
      split
      · next ds h => exact absurd h (toDigits_head_ne_minus m ds)
      · exact isDigitRun_toDigits m
    unfold getIntValue
    rw [if_pos hdec, hd]
    split
    · next ds h => exact absurd h (toDigits_head_ne_minus m ds)
    · rw [digitsValue_toDigits]; rfl
  | negSucc m =>
    have hd := toString_negSucc_data m
    have hdec : isDecimalInteger (toString (Int.negSucc m)) = true := by
      unfold isDecimalInteger
      rw [hd]
      exact isDigitRun_toDigits (m + 1)
    unfold getIntValue
    rw [if_pos hdec, hd]
    simp only [digitsValue_toDigits]
    rfl

/-! ## Tokens -/

theorem splitAtColons_ne_nil (l : List Char) : splitAtColons l ≠ [] := by
  cases l with
  | nil => simp [splitAtColons]
  | cons c cs =>
    simp only [splitAtColons]
    split
    · simp
    · split <;> simp

theorem splitAtColons_of_not_mem (a : List Char) (h : ':' ∉ a) : splitAtColons a = [a] := by
  induction a with
  | nil => rfl
  | cons c a ih =>
    have hc : c ≠ ':' := fun e => h (by simp [e])
    have ha : ':' ∉ a := fun e => h (List.mem_cons_of_mem _ e)
    simp [splitAtColons, hc, ih ha]

theorem splitAtColons_append (a r : List Char) (h : ':' ∉ a) :
    splitAtColons (a ++ ':' :: r) = a :: splitAtColons r := by
  induction a with
  | nil => simp [splitAtColons]
  | cons c a ih =>
    have hc : c ≠ ':' := fun e => h (by simp [e])
    have ha : ':' ∉ a := fun e => h (List.mem_cons_of_mem _ e)
    simp [splitAtColons, hc, ih ha]

/-- A colon-free text is its own single token, unless it is empty. -/
theorem fromTokens_of_not_mem (s : String) (h : ':' ∉ s.data) :
    fromTokens s = if s.data = [] then [] else [s] := by
  unfold fromTokens
  split
  · rfl
  · rw [splitAtColons_of_not_mem _ h]; rfl

/-- Three colon-free texts joined by colons are tokenized into these three texts. -/
theorem fromTokens_three (h a nm : String) (hh : ':' ∉ h.data) (ha : ':' ∉ a.data)
    (hn : ':' ∉ nm.data) : fromTokens (h ++ ":" ++ a ++ ":" ++ nm) = [h, a, nm] := by
  have hd : (h ++ ":" ++ a ++ ":" ++ nm).data = h.data ++ ':' :: (a.data ++ ':' :: nm.data) := by
    simp [String.data_append]
  unfold fromTokens
  rw [hd, if_neg (by simp), splitAtColons_append _ _ hh, splitAtColons_append _ _ ha,
    splitAtColons_of_not_mem _ hn]
  rfl

/-! ## The constructor from a canonical string -/

theorem fromString_of_two (s : String) (now : Int) (t0 t1 : String) (rest : List String)
    (h : fromTokens s = t0 :: t1 :: rest) :
    ServerInfo.fromString s now =
      { m_host := t0, m_name := rest.headD "", m_id := getIntValue t1, m_load := 0,
        m_updated := now } := by
  unfold ServerInfo.fromString
  rw [h]
  cases rest with
  | nil => simp [ServerInfo.refresh]
  | cons t2 more => simp [ServerInfo.refresh]

theorem fromString_of_short (s : String) (now : Int) (h : (fromTokens s).length ≤ 1) :
    ServerInfo.fromString s now =
      { m_host := s, m_name := "", m_id := 0, m_load := 0, m_updated := now } := by
  unfold ServerInfo.fromString
  simp only [gt_iff_lt, if_neg (show ¬ 1 < (fromTokens s).length by omega)]
  rfl

/-- C1: when the string has at least two tokens `t0, t1, ...`, the descriptor built from it
has host `t0`, id the integer value of `t1`, name `t2` if there is a third token and the
empty name otherwise, and load 0; a string with the same first three tokens and other
later tokens builds the same descriptor. -/
theorem fromString_fields (s : String) (now : Int) (t0 t1 : String) (rest : List String)
    (h : fromTokens s = t0 :: t1 :: rest) :
    (ServerInfo.fromString s now).m_host = t0 ∧
    (ServerInfo.fromString s now).m_id = getIntValue t1 ∧
    (rest = [] → (ServerInfo.fromString s now).m_name = "") ∧
    (∀ t2 more, rest = t2 :: more → (ServerInfo.fromString s now).m_name = t2) ∧
    (ServerInfo.fromString s now).m_load = 0 ∧
    (∀ t2 more, rest = t2 :: more → ∀ s' more', fromTokens s' = t0 :: t1 :: t2 :: more' →
      ServerInfo.fromString s' now = ServerInfo.fromString s now) := by
  rw [fromString_of_two s now t0 t1 rest h]
  refine ⟨rfl, rfl, ?_, ?_, rfl, ?_⟩
  · rintro rfl; rfl
  · rintro t2 more rfl; rfl
  · rintro t2 more rfl s' more' h'
    rw [fromString_of_two s' now t0 t1 _ h']
    rfl

/-- C1 at `"host:7:name:extra"`: host `"host"`, id 7, name `"name"`, load 0, and the same
descriptor as for `"host:7:name"`. -/
theorem fromString_fields_witness :
    fromTokens "host:7:name:extra" = ["host", "7", "name", "extra"] ∧
    (ServerInfo.fromString "host:7:name:extra" 0).m_host = "host" ∧
    (ServerInfo.fromString "host:7:name:extra" 0).m_id = 7 ∧
    (ServerInfo.fromString "host:7:name:extra" 0).m_name = "name" ∧
    (ServerInfo.fromString "host:7:name:extra" 0).m_load = 0 ∧
    ServerInfo.fromString "host:7:name" 0 = ServerInfo.fromString "host:7:name:extra" 0 :=
  ⟨by decide,
    (fromString_fields "host:7:name:extra" 0 "host" "7" ["name", "extra"] (by decide)).1,
    (fromString_fields "host:7:name:extra" 0 "host" "7" ["name", "extra"]
      (by decide)).2.1.trans (by decide),
    (fromString_fields "host:7:name:extra" 0 "host" "7" ["name", "extra"]
      (by decide)).2.2.2.1 "name" ["extra"] rfl,
    (fromString_fields "host:7:name:extra" 0 "host" "7" ["name", "extra"]
      (by decide)).2.2.2.2.1,
    (fromString_fields "host:7:name:extra" 0 "host" "7" ["name", "extra"]
      (by decide)).2.2.2.2.2 "name" ["extra"] rfl "host:7:name" [] (by decide)⟩

/-- C2: for a colon-free host `h`, a colon-free name `nm` and an `int` n in decimal form,
serializing the descriptor built from `h:n:nm` returns `h:n:nm`. -/
theorem serialize_fromString (h nm : String) (n : Int) (now : Int)
    (hh : ':' ∉ h.data) (hn : ':' ∉ nm.data) (_hr : isInt32 n) :
    (ServerInfo.fromString (h ++ ":" ++ toString n ++ ":" ++ nm) now).serialize
      = h ++ ":" ++ toString n ++ ":" ++ nm := by
  have ht := fromTokens_three h (toString n) nm hh (colon_not_mem_toString n) hn
  rw [fromString_of_two _ now h (toString n) [nm] ht]
  simp [ServerInfo.serialize, getIntValue_toString]

/-- C2 at host `"host"`, id 7, name `"name"`: the string `"host:7:name"` is returned. -/
theorem serialize_fromString_witness :
    ':' ∉ "host".data ∧ ':' ∉ "name".data ∧ isInt32 7 ∧
    (ServerInfo.fromString ("host" ++ ":" ++ toString (7 : Int) ++ ":" ++ "name") 0).serialize
      = "host" ++ ":" ++ toString (7 : Int) ++ ":" ++ "name" :=
  ⟨by decide, by decide, by unfold isInt32; decide,
    serialize_fromString "host" "name" 7 0 (by decide) (by decide) (by unfold isInt32; decide)⟩

/-- C3 fails for a host with colons: the descriptor with host `"::1"`, id 0 and an empty
name serializes to `"::1:0:"`, which splits into five fields, not into its three. -/
theorem serialize_tokens_counterexample :
    (ServerInfo.fromFields "::1" "" 0 0 0).serialize = "::1:0:" ∧
    fromTokens (ServerInfo.fromFields "::1" "" 0 0 0).serialize = ["", "", "1", "0", ""] ∧
    fromTokens (ServerInfo.fromFields "::1" "" 0 0 0).serialize ≠
      [(ServerInfo.fromFields "::1" "" 0 0 0).m_host,
       toString (ServerInfo.fromFields "::1" "" 0 0 0).m_id,
       (ServerInfo.fromFields "::1" "" 0 0 0).m_name] := by
  decide

/-- C3, amended: for every descriptor whose host and name contain no colon (id 0 and an
empty name included), splitting `serialize()` on `':'` yields exactly the three fields
host, decimal id and name, in that order. -/
theorem serialize_tokens (d : ServerInfo) (hh : ':' ∉ d.m_host.data)
    (hn : ':' ∉ d.m_name.data) :
    fromTokens d.serialize = [d.m_host, toString d.m_id, d.m_name] :=
  fromTokens_three d.m_host (toString d.m_id) d.m_name hh (colon_not_mem_toString _) hn

/-- C3, amended, at the descriptor with host `"host"`, id 0 and an empty name. -/
theorem serialize_tokens_witness :
    ':' ∉ (ServerInfo.fromFields "host" "" 0 0 0).m_host.data ∧
    ':' ∉ (ServerInfo.fromFields "host" "" 0 0 0).m_name.data ∧
    fromTokens (ServerInfo.fromFields "host" "" 0 0 0).serialize =
      [(ServerInfo.fromFields "host" "" 0 0 0).m_host,
       toString (ServerInfo.fromFields "host" "" 0 0 0).m_id,
       (ServerInfo.fromFields "host" "" 0 0 0).m_name] :=
  ⟨by decide, by decide,
    serialize_tokens (ServerInfo.fromFields "host" "" 0 0 0) (by decide) (by decide)⟩

/-- C4: the constructor from a string always returns a descriptor; the id is 0 when there is
no id token or when the id token is not a decimal integer, and the name is empty when there
is no name token. -/
theorem fromString_lenient (s : String) (now : Int) :
    (∃ d : ServerInfo, ServerInfo.fromString s now = d) ∧
    ((fromTokens s).length ≤ 1 → (ServerInfo.fromString s now).m_id = 0) ∧
    (∀ t0 t1 rest, fromTokens s = t0 :: t1 :: rest → isDecimalInteger t1 = false →
      (ServerInfo.fromString s now).m_id = 0) ∧
    ((fromTokens s).length ≤ 2 → (ServerInfo.fromString s now).m_name = "") := by
  refine ⟨⟨_, rfl⟩, ?_, ?_, ?_⟩
  · intro h
    rw [fromString_of_short s now h]
  · intro t0 t1 rest h hbad
    rw [fromString_of_two s now t0 t1 rest h]
    simp [getIntValue, hbad]
  · intro h
    match hs : fromTokens s with
    | [] => rw [fromString_of_short s now (by simp [hs])]
    | [t0] => rw [fromString_of_short s now (by simp [hs])]
    | [t0, t1] => rw [fromString_of_two s now t0 t1 [] hs]; rfl
    | t0 :: t1 :: t2 :: more => simp [hs] at h

/-- C4 at `"host:x7"`: two tokens, the id text `"x7"` is not a decimal integer; id 0, empty
name. -/
theorem fromString_lenient_witness :
    fromTokens "host:x7" = ["host", "x7"] ∧ isDecimalInteger "x7" = false ∧
    (ServerInfo.fromString "host:x7" 0).m_id = 0 ∧
    (ServerInfo.fromString "host:x7" 0).m_name = "" :=
  ⟨by decide, by decide,
    (fromString_lenient "host:x7" 0).2.2.1 "host" "x7" [] (by decide) (by decide),
    (fromString_lenient "host:x7" 0).2.2.2 (by decide)⟩

/-- C5: for a string `s` without colon (the empty string included) the descriptor built
from it has host `s`, id 0 and an empty name; `getHostAndID()` returns `s` and
`serialize()` returns `s` followed by `":0:"`. -/
theorem fromString_host_only (s : String) (now : Int) (h : ':' ∉ s.data) :
    (ServerInfo.fromString s now).m_host = s ∧
    (ServerInfo.fromString s now).m_id = 0 ∧
    (ServerInfo.fromString s now).m_name = "" ∧
    (ServerInfo.fromString s now).getHostAndID = s ∧
    (ServerInfo.fromString s now).serialize = s ++ ":0:" := by
  have hl : (fromTokens s).length ≤ 1 := by
    rw [fromTokens_of_not_mem s h]
    split <;> simp
  rw [fromString_of_short s now hl]
  refine ⟨rfl, rfl, rfl, ?_, ?_⟩
  · simp [ServerInfo.getHostAndID]
  · apply String.ext
    simp [ServerInfo.serialize, String.data_append]
    rfl

/-- C5 at `"onlyhost"`: `getHostAndID()` is `"onlyhost"` and `serialize()` is
`"onlyhost:0:"`. -/
theorem fromString_host_only_witness :
    ':' ∉ "onlyhost".data ∧
    ((ServerInfo.fromString "onlyhost" 0).m_host = "onlyhost" ∧
    (ServerInfo.fromString "onlyhost" 0).m_id = 0 ∧
    (ServerInfo.fromString "onlyhost" 0).m_name = "" ∧
    (ServerInfo.fromString "onlyhost" 0).getHostAndID = "onlyhost" ∧
    (ServerInfo.fromString "onlyhost" 0).serialize = "onlyhost" ++ ":0:") :=
  ⟨by decide, fromString_host_only "onlyhost" 0 (by decide)⟩

/-! ## Equality, the id-suffixed getters and copying -/

theorem eq_true_iff (a b : ServerInfo) :
    a.eq b = true ↔ a.m_host = b.m_host ∧ a.m_name = b.m_name ∧ a.m_id = b.m_id := by
  simp [ServerInfo.eq, and_assoc]

/-- C6: `a == b` holds exactly when host, name and id agree; changing load and updated of
a descriptor gives an equal one; and `==` is reflexive, symmetric and transitive. -/
theorem eq_host_name_id (a b : ServerInfo) :
    (a.eq b = true ↔ a.m_host = b.m_host ∧ a.m_name = b.m_name ∧ a.m_id = b.m_id) ∧
    (∀ (l : Rat) (u : Int), a.eq { a with m_load := l, m_updated := u } = true) ∧
    a.eq a = true ∧
    (a.eq b = true → b.eq a = true) ∧
    (∀ c : ServerInfo, a.eq b = true → b.eq c = true → a.eq c = true) := by
  refine ⟨eq_true_iff a b, ?_, ?_, ?_, ?_⟩
  · intro l u
    rw [eq_true_iff]
    exact ⟨rfl, rfl, rfl⟩
  · rw [eq_true_iff]
    exact ⟨rfl, rfl, rfl⟩
  · rw [eq_true_iff, eq_true_iff]
    rintro ⟨h1, h2, h3⟩
    exact ⟨h1.symm, h2.symm, h3.symm⟩
  · intro c
    rw [eq_true_iff, eq_true_iff, eq_true_iff]
    rintro ⟨h1, h2, h3⟩ ⟨k1, k2, k3⟩
    exact ⟨h1.trans k1, h2.trans k2, h3.trans k3⟩

/-- C6 at two descriptors `host`/`name`/7 that differ in load (1/2 and 3) and in updated
(10 and 20): they compare equal, in both directions. -/
theorem eq_host_name_id_witness :
    (ServerInfo.fromFields "host" "name" 7 (1 / 2) 10).eq
      (ServerInfo.fromFields "host" "name" 7 3 20) = true ∧
    (ServerInfo.fromFields "host" "name" 7 3 20).eq
      (ServerInfo.fromFields "host" "name" 7 (1 / 2) 10) = true :=
  ⟨by decide,
    (eq_host_name_id (ServerInfo.fromFields "host" "name" 7 (1 / 2) 10)
      (ServerInfo.fromFields "host" "name" 7 3 20)).2.2.2.1 (by decide)⟩

/-- C7: `getHostAndID()` is the host followed by `":"` and the decimal id when the id is
positive, and the host alone when the id is zero or negative; `getNameAndID()` is the same
with the name. -/
theorem getHostAndID_getNameAndID (d : ServerInfo) :
    (0 < d.m_id → d.getHostAndID = d.m_host ++ ":" ++ toString d.m_id) ∧
    (d.m_id ≤ 0 → d.getHostAndID = d.m_host) ∧
    (0 < d.m_id → d.getNameAndID = d.m_name ++ ":" ++ toString d.m_id) ∧
    (d.m_id ≤ 0 → d.getNameAndID = d.m_name) := by
  refine ⟨?_, ?_, ?_, ?_⟩
  · intro h; simp [ServerInfo.getHostAndID, h]
  · intro h; simp [ServerInfo.getHostAndID, not_lt.mpr h]
  · intro h; simp [ServerInfo.getNameAndID, h]
  · intro h; simp [ServerInfo.getNameAndID, not_lt.mpr h]

/-- C7 at ids 7 and -3 for host `"host"` and name `"name"`. -/
theorem getHostAndID_getNameAndID_witness :
    (ServerInfo.fromFields "host" "name" 7 0 0).getHostAndID = "host:7" ∧
    (ServerInfo.fromFields "host" "name" (-3) 0 0).getHostAndID = "host" ∧
    (ServerInfo.fromFields "host" "name" 7 0 0).getNameAndID = "name:7" ∧
    (ServerInfo.fromFields "host" "name" (-3) 0 0).getNameAndID = "name" :=
  ⟨(getHostAndID_getNameAndID (ServerInfo.fromFields "host" "name" 7 0 0)).1 (by decide),
    (getHostAndID_getNameAndID (ServerInfo.fromFields "host" "name" (-3) 0 0)).2.1 (by decide),
    (getHostAndID_getNameAndID (ServerInfo.fromFields "host" "name" 7 0 0)).2.2.1 (by decide),
    (getHostAndID_getNameAndID (ServerInfo.fromFields "host" "name" (-3) 0 0)).2.2.2
      (by decide)⟩

/-- C10: the copy made at clock reading `t` has the host, name, id and load of the source
and `updated = t`, whatever the `updated` of the source is, and the source is left as it
was. -/
theorem copy_resets_updated (d : ServerInfo) (t : Int) :
    (d.copy t).2.m_host = d.m_host ∧
    (d.copy t).2.m_name = d.m_name ∧
    (d.copy t).2.m_id = d.m_id ∧
    (d.copy t).2.m_load = d.m_load ∧
    (d.copy t).2.m_updated = t ∧
    t ≤ (d.copy t).2.m_updated ∧
    (∀ u : Int, (ServerInfo.copy { d with m_updated := u } t).2 = (d.copy t).2) ∧
    (d.copy t).1 = d :=
  ⟨rfl, rfl, rfl, rfl, rfl, le_refl t, fun _ => rfl, rfl⟩

/-! ## Zero padding and the tag format -/

theorem leadingZeros_data (n : Int) (k : Nat) (s : String) :
    (LogTag.leadingZeros n k s).data =
      s.data ++ List.replicate
        (((List.range' 1 k).filter (fun j => decide (n < 10 ^ j))).length) '0' := by
  induction k generalizing s with
  | zero => simp [LogTag.leadingZeros]
  | succ k ih =>
    rw [LogTag.leadingZeros, ih, List.range'_1_concat, List.filter_append, List.length_append]
    by_cases h : n < 10 ^ (k + 1)
    · have e : (1 : Nat) + k = k + 1 := by omega
      simp only [h, if_true, String.data_append, e, List.filter_cons, decide_True,
        List.filter_nil, List.length_singleton, List.append_assoc]
      congr 1
    · have e : (1 : Nat) + k = k + 1 := by omega
      simp [h, e]

theorem filter_thresholds_length (m k : Nat) :
    ((List.range' 1 k).filter (fun j => decide ((m : Int) < 10 ^ j))).length =
      k + 1 - (Nat.toDigits 10 m).length := by
  have hL := List.length_pos.mpr (toDigits_ne_nil m)
  induction k with
  | zero => simp; omega
  | succ k ih =>
    rw [List.range'_1_concat, List.filter_append, List.length_append, ih]
    have hiff := toDigits_length_le_iff m (k + 1) (by omega)
    have e : (1 : Nat) + k = k + 1 := by omega
    have hc : ((m : Int) < 10 ^ (k + 1)) ↔ m < 10 ^ (k + 1) := by exact_mod_cast Iff.rfl
    by_cases h : m < 10 ^ (k + 1)
    · have := hiff.mpr h
      simp [e, hc, h]
      omega
    · have : ¬ (Nat.toDigits 10 m).length ≤ k + 1 := fun h' => h (hiff.mp h')
      simp [e, hc, h]
      omega

theorem getStrWithLeadingZero_data (m : Nat) (digits : Int) :
    (LogTag.getStrWithLeadingZero (m : Int) digits).data =
      List.replicate (digits.toNat - (Nat.toDigits 10 m).length) '0' ++ Nat.toDigits 10 m := by
  have hL := List.length_pos.mpr (toDigits_ne_nil m)
  unfold LogTag.getStrWithLeadingZero
  rw [String.data_append, leadingZeros_data, filter_thresholds_length, toString_ofNat_data]
  have e : (digits - 1).toNat + 1 - (Nat.toDigits 10 m).length =
      digits.toNat - (Nat.toDigits 10 m).length := by omega
  rw [e]
  rfl

/-- C8: for `n ≥ 0`, `getStrWithLeadingZero (n, digits)` is the decimal text of `n` with
one `'0'` in front for each `k` in `1..digits-1` with `n < 10^k`; that is, with
`digits - length` zeros in front, so its length is the larger of `digits` and the number
of decimal digits of `n`; for `digits ≤ 1` it is the decimal text of `n` alone. -/
theorem getStrWithLeadingZero_pads (n : Int) (hn : 0 ≤ n) (digits : Int) :
    LogTag.getStrWithLeadingZero n digits =
      ⟨List.replicate (LogTag.thresholdsNotReached n digits) '0'⟩ ++ toString n ∧
    LogTag.getStrWithLeadingZero n digits =
      ⟨List.replicate (digits.toNat - (toString n).length) '0'⟩ ++ toString n ∧
    ((LogTag.getStrWithLeadingZero n digits).length : Int) =
      max digits ((toString n).length : Int) ∧
    (digits ≤ 1 → LogTag.getStrWithLeadingZero n digits = toString n) := by
  obtain ⟨m, rfl⟩ := Int.eq_ofNat_of_zero_le hn
  have hL := List.length_pos.mpr (toDigits_ne_nil m)
  have hlen : (toString (m : Int)).length = (Nat.toDigits 10 m).length := rfl
  have hd := getStrWithLeadingZero_data m digits
  refine ⟨?_, ?_, ?_, ?_⟩
  · apply String.ext
    unfold LogTag.getStrWithLeadingZero LogTag.thresholdsNotReached
    rw [String.data_append, String.data_append, leadingZeros_data]
    rfl
  · apply String.ext
    rw [hd, String.data_append, hlen, toString_ofNat_data]
  · rw [String.length, hd, hlen, List.length_append, List.length_replicate]
    omega
  · intro h1
    apply String.ext
    rw [hd, toString_ofNat_data]
    have : digits.toNat - (Nat.toDigits 10 m).length = 0 := by omega
    rw [this]
    rfl

/-- C8 at the inputs (5,2), (0,2), (10,2), (999,3) and (5,1): the results are `"05"`,
`"00"`, `"10"`, `"999"` and `"5"`. -/
theorem getStrWithLeadingZero_pads_witness :
    LogTag.getStrWithLeadingZero 5 2 = "05" ∧
    LogTag.getStrWithLeadingZero 0 2 = "00" ∧
    LogTag.getStrWithLeadingZero 10 2 = "10" ∧
    LogTag.getStrWithLeadingZero 999 3 = "999" ∧
    LogTag.getStrWithLeadingZero 5 1 = "5" :=
  ⟨(getStrWithLeadingZero_pads 5 (by decide) 2).2.1.trans (by decide),
    (getStrWithLeadingZero_pads 0 (by decide) 2).2.1.trans (by decide),
    (getStrWithLeadingZero_pads 10 (by decide) 2).2.1.trans (by decide),
    (getStrWithLeadingZero_pads 999 (by decide) 3).1.trans (by decide),
    (getStrWithLeadingZero_pads 5 (by decide) 1).2.2.2 (by decide)⟩

theorem digitChar_zero : Nat.digitChar 0 = '0' := rfl

theorem getStrWithLeadingZero_two (x : Int) (h0 : 0 ≤ x) (h1 : x ≤ 99) :
    LogTag.getStrWithLeadingZero x 2 = LogTag.twoDigits x.toNat := by
  obtain ⟨m, rfl⟩ := Int.eq_ofNat_of_zero_le h0
  have hm : m ≤ 99 := by exact_mod_cast h1
  apply String.ext
  rw [getStrWithLeadingZero_data, Int.toNat_ofNat]
  have e2 : (2 : Int).toNat = 2 := rfl
  rw [e2]
  by_cases h : m < 10
  · have q : m / 10 = 0 := by omega
    have r : m % 10 = m := by omega
    simp [toDigits_lt m h, LogTag.twoDigits, q, r, digitChar_zero]
  · have q : m / 10 < 10 := by omega
    simp [toDigits_ge m (by omega), toDigits_lt _ q, LogTag.twoDigits]

theorem getStrWithLeadingZero_three (x : Int) (h0 : 0 ≤ x) (h1 : x ≤ 999) :
    LogTag.getStrWithLeadingZero x 3 = LogTag.threeDigits x.toNat := by
  obtain ⟨m, rfl⟩ := Int.eq_ofNat_of_zero_le h0
  have hm : m ≤ 999 := by exact_mod_cast h1
  apply String.ext
  rw [getStrWithLeadingZero_data, Int.toNat_ofNat]
  have e3 : (3 : Int).toNat = 3 := rfl
  rw [e3]
  by_cases h : m < 10
  · have q : m / 100 = 0 := by omega
    have q' : m / 10 % 10 = 0 := by omega
    have r : m % 10 = m := by omega
    simp [toDigits_lt m h, LogTag.threeDigits, q, q', r, List.replicate, digitChar_zero]
  · by_cases h' : m < 100
    · have q : m / 100 = 0 := by omega
      have q' : m / 10 % 10 = m / 10 := by omega
      have q'' : m / 10 < 10 := by omega
      simp [toDigits_ge m (by omega), toDigits_lt _ q'', LogTag.threeDigits, q, q', digitChar_zero]
    · have q : m / 10 / 10 = m / 100 := by omega
      have q' : m / 100 < 10 := by omega
      have q'' : 10 ≤ m / 10 := by omega
      simp [toDigits_ge m (by omega), toDigits_ge _ q'', q, toDigits_lt _ q',
        LogTag.threeDigits]

/-- C9: when the clock reads hours in 0..23, minutes and seconds in 0..59 and milliseconds
in 0..999, `getTaggedStr (name, instanceKey)` is `HH:MM:SS.mmm|name|instanceKey` with
two-digit hours, minutes and seconds and three-digit milliseconds, and the time prefix
has exactly 12 characters. -/
theorem getTaggedStr_format (now : ClockReading) (name instanceKey : String)
    (hH : 0 ≤ now.hours ∧ now.hours ≤ 23) (hM : 0 ≤ now.minutes ∧ now.minutes ≤ 59)
    (hS : 0 ≤ now.seconds ∧ now.seconds ≤ 59)
    (hm : 0 ≤ now.milliseconds ∧ now.milliseconds ≤ 999) :
    LogTag.getTaggedStr now name instanceKey =
      LogTag.twoDigits now.hours.toNat ++ ":" ++ LogTag.twoDigits now.minutes.toNat ++ ":" ++
        LogTag.twoDigits now.seconds.toNat ++ "." ++
        LogTag.threeDigits now.milliseconds.toNat ++ "|" ++ name ++ "|" ++ instanceKey ∧
    LogTag.getTimeStr now =
      LogTag.twoDigits now.hours.toNat ++ ":" ++ LogTag.twoDigits now.minutes.toNat ++ ":" ++
        LogTag.twoDigits now.seconds.toNat ++ "." ++
        LogTag.threeDigits now.milliseconds.toNat ∧
    (LogTag.getTimeStr now).length = 12 := by
  have eH := getStrWithLeadingZero_two now.hours hH.1 (by omega)
  have eM := getStrWithLeadingZero_two now.minutes hM.1 (by omega)
  have eS := getStrWithLeadingZero_two now.seconds hS.1 (by omega)
  have em := getStrWithLeadingZero_three now.milliseconds hm.1 hm.2
  have ht : LogTag.getTimeStr now =
      LogTag.twoDigits now.hours.toNat ++ ":" ++ LogTag.twoDigits now.minutes.toNat ++ ":" ++
        LogTag.twoDigits now.seconds.toNat ++ "." ++
        LogTag.threeDigits now.milliseconds.toNat := by
    unfold LogTag.getTimeStr
    simp only [eH, eM, eS, em]
    apply String.ext
    simp [String.data_append]
  refine ⟨?_, ht, ?_⟩
  · unfold LogTag.getTaggedStr
    rw [ht]
    apply String.ext
    simp [String.data_append]
  · rw [ht]
    simp only [String.length_append]
    rfl

/-- C9 at 09:05:07.042 with name `"srv"` and instance key `"static"`: the tag is
`"09:05:07.042|srv|static"`. -/
theorem getTaggedStr_format_witness :
    LogTag.getTaggedStr ⟨9, 5, 7, 42⟩ "srv" "static" = "09:05:07.042|srv|static" ∧
    (LogTag.getTimeStr ⟨9, 5, 7, 42⟩).length = 12 :=
  ⟨(getTaggedStr_format ⟨9, 5, 7, 42⟩ "srv" "static" (by decide) (by decide) (by decide)
      (by decide)).1.trans (by decide),
    (getTaggedStr_format ⟨9, 5, 7, 42⟩ "srv" "static" (by decide) (by decide) (by decide)
      (by decide)).2.2⟩

/-! ## Refreshing, the diagnostic text, and parsing a serialization -/

/-- C11: `refresh()` sets `updated` to the clock reading and keeps host, name, id and load;
`refresh (x)` sets `updated` to the clock reading and load to `x` and keeps host, name and
id; after either call the descriptor compares equal to what it was; and no other member
function changes the object. -/
theorem refresh_frame (d : ServerInfo) (x : Rat) (now : Int) :
    ((d.refresh now).m_updated = now ∧ (d.refresh now).m_host = d.m_host ∧
      (d.refresh now).m_name = d.m_name ∧ (d.refresh now).m_id = d.m_id ∧
      (d.refresh now).m_load = d.m_load) ∧
    ((d.refreshLoad x now).m_updated = now ∧ (d.refreshLoad x now).m_load = x ∧
      (d.refreshLoad x now).m_host = d.m_host ∧ (d.refreshLoad x now).m_name = d.m_name ∧
      (d.refreshLoad x now).m_id = d.m_id) ∧
    ((d.refresh now).eq d = true ∧ (d.refreshLoad x now).eq d = true) ∧
    (∀ m : ServerInfo.Member, d.call m now ≠ d →
      m = ServerInfo.Member.refresh ∨ ∃ l, m = ServerInfo.Member.refreshLoad l) := by
  refine ⟨⟨rfl, rfl, rfl, rfl, rfl⟩, ⟨rfl, rfl, rfl, rfl, rfl⟩, ⟨?_, ?_⟩, ?_⟩
  · rw [eq_true_iff]; exact ⟨rfl, rfl, rfl⟩
  · rw [eq_true_iff]; exact ⟨rfl, rfl, rfl⟩
  · intro m hm
    cases m with
    | refresh => exact Or.inl rfl
    | refreshLoad l => exact Or.inr ⟨l, rfl⟩
    | _ => exact absurd rfl hm

/-- C11 at the descriptor `host`/`name`/7 with load 1/2 updated at 10: `refresh (3)` at
clock reading 20 changes the object, and the call is one of the two `refresh` overloads. -/
theorem refresh_frame_witness :
    (ServerInfo.fromFields "host" "name" 7 (1 / 2) 10).call
      (ServerInfo.Member.refreshLoad 3) 20 ≠ ServerInfo.fromFields "host" "name" 7 (1 / 2) 10 ∧
    (ServerInfo.Member.refreshLoad 3 = ServerInfo.Member.refresh ∨
      ∃ l, ServerInfo.Member.refreshLoad 3 = ServerInfo.Member.refreshLoad l) :=
  ⟨fun h => absurd (congrArg ServerInfo.m_updated h) (by decide),
    (refresh_frame (ServerInfo.fromFields "host" "name" 7 (1 / 2) 10) 3 20).2.2.2
      (ServerInfo.Member.refreshLoad 3)
      (fun h => absurd (congrArg ServerInfo.m_updated h) (by decide))⟩

/-- C17: `toString()` is `Server(name=<name>, host=<host>, id=<id>` followed by
`, load=<load>` when the load is positive, and then `)`; when the load is not positive the
text after the id is `)` alone. -/
theorem toString_load (floatText : Rat → String) (d : ServerInfo) :
    (0 < d.m_load → d.toString floatText =
      "Server(name=" ++ d.m_name ++ ", host=" ++ d.m_host ++ ", id=" ++ toString d.m_id ++
        ", load=" ++ floatText d.m_load ++ ")") ∧
    (d.m_load ≤ 0 → d.toString floatText =
      "Server(name=" ++ d.m_name ++ ", host=" ++ d.m_host ++ ", id=" ++ toString d.m_id ++
        ")") := by
  constructor
  · intro h
    apply String.ext
    simp [ServerInfo.toString, h, String.data_append]
  · intro h
    apply String.ext
    simp [ServerInfo.toString, not_lt.mpr h, String.data_append]

/-- C17 at `host`/`name`/7 with load 3 written as `3.0`, and with load 0. -/
theorem toString_load_witness :
    (ServerInfo.fromFields "host" "name" 7 3 0).toString (fun _ => "3.0") =
      "Server(name=name, host=host, id=7, load=3.0)" ∧
    (ServerInfo.fromFields "host" "name" 7 0 0).toString (fun _ => "3.0") =
      "Server(name=name, host=host, id=7)" :=
  ⟨((toString_load (fun _ => "3.0") (ServerInfo.fromFields "host" "name" 7 3 0)).1
      (by decide)).trans (by decide),
    ((toString_load (fun _ => "3.0") (ServerInfo.fromFields "host" "name" 7 0 0)).2
      (by decide)).trans (by decide)⟩

theorem splitAtColons_colon_free (l : List Char) : ∀ t ∈ splitAtColons l, ':' ∉ t := by
  induction l with
  | nil => simp [splitAtColons]
  | cons c cs ih =>
    by_cases hc : c = ':'
    · simp only [splitAtColons, hc, if_true]
      intro t ht
      rcases List.mem_cons.mp ht with h | h
      · simp [h]
      · exact ih t h
    · simp only [splitAtColons, hc, if_false]
      cases hs : splitAtColons cs with
      | nil => exact absurd hs (splitAtColons_ne_nil cs)
      | cons t ts =>
        rw [hs] at ih
        intro u hu
        rcases List.mem_cons.mp hu with h | h
        · rw [h]
          intro hm
          rcases List.mem_cons.mp hm with h' | h'
          · exact hc h'.symm
          · exact ih t (List.mem_cons_self _ _) h'
        · exact ih u (List.mem_cons_of_mem _ h)

theorem splitAtColons_length_of_mem (l : List Char) (h : ':' ∈ l) :
    2 ≤ (splitAtColons l).length := by
  induction l with
  | nil => simp at h
  | cons c cs ih =>
    by_cases hc : c = ':'
    · simp only [splitAtColons, hc, if_true, List.length_cons]
      have := List.length_pos.mpr (splitAtColons_ne_nil cs)
      omega
    · have hcs : ':' ∈ cs := by
        rcases List.mem_cons.mp h with h' | h'
        · exact absurd h'.symm hc
        · exact h'
      have := ih hcs
      simp only [splitAtColons, hc, if_false]
      cases hs : splitAtColons cs with
      | nil => rw [hs] at this; simp at this
      | cons t ts => rw [hs] at this; simpa using this

theorem fromTokens_colon_free (s : String) : ∀ t ∈ fromTokens s, ':' ∉ t.data := by
  unfold fromTokens
  split
  · simp
  · intro t ht
    obtain ⟨l, hl, rfl⟩ := List.mem_map.mp ht
    exact splitAtColons_colon_free _ l hl

theorem colon_free_of_short (s : String) (h : (fromTokens s).length ≤ 1) : ':' ∉ s.data := by
  intro hm
  have h2 := splitAtColons_length_of_mem s.data hm
  have hne : s.data ≠ [] := by intro e; rw [e] at hm; simp at hm
  unfold fromTokens at h
  rw [if_neg hne, List.length_map] at h
  omega

/-- The descriptor built from a string has a colon-free host and a colon-free name. -/
theorem fromString_colon_free (s : String) (now : Int) :
    ':' ∉ (ServerInfo.fromString s now).m_host.data ∧
    ':' ∉ (ServerInfo.fromString s now).m_name.data := by
  match hs : fromTokens s with
  | [] =>
    rw [fromString_of_short s now (by simp [hs])]
    exact ⟨colon_free_of_short s (by simp [hs]), by simp⟩
  | [t0] =>
    rw [fromString_of_short s now (by simp [hs])]
    exact ⟨colon_free_of_short s (by simp [hs]), by simp⟩
  | [t0, t1] =>
    rw [fromString_of_two s now t0 t1 [] hs]
    exact ⟨fromTokens_colon_free s t0 (by simp [hs]), by simp⟩
  | t0 :: t1 :: t2 :: more =>
    rw [fromString_of_two s now t0 t1 _ hs]
    exact ⟨fromTokens_colon_free s t0 (by simp [hs]), fromTokens_colon_free s t2 (by simp [hs])⟩

/-- Building a descriptor from the serialization of a descriptor with colon-free host and
name gives back host, name and id. -/
theorem fromString_serialize (d : ServerInfo) (now : Int) (hh : ':' ∉ d.m_host.data)
    (hn : ':' ∉ d.m_name.data) :
    ServerInfo.fromString d.serialize now =
      { m_host := d.m_host, m_name := d.m_name, m_id := d.m_id, m_load := 0,
        m_updated := now } := by
  have ht : fromTokens d.serialize = [d.m_host, toString d.m_id, d.m_name] :=
    fromTokens_three d.m_host (toString d.m_id) d.m_name hh (colon_not_mem_toString _) hn
  rw [fromString_of_two _ now _ _ _ ht, getIntValue_toString]
  rfl

/-- C18: for a descriptor whose host and name contain no colon, whatever its id, the
descriptor built from its serialization compares equal to it: host, id and name are
recovered; for the host `"::1"` they are not. -/
theorem fromString_serialize_eq :
    (∀ (d : ServerInfo) (now : Int), ':' ∉ d.m_host.data → ':' ∉ d.m_name.data →
      (ServerInfo.fromString d.serialize now).eq d = true ∧
      (ServerInfo.fromString d.serialize now).m_host = d.m_host ∧
      (ServerInfo.fromString d.serialize now).m_id = d.m_id ∧
      (ServerInfo.fromString d.serialize now).m_name = d.m_name) ∧
    (ServerInfo.fromString (ServerInfo.fromFields "::1" "node" 0 0 0).serialize 0).eq
      (ServerInfo.fromFields "::1" "node" 0 0 0) = false := by
  refine ⟨?_, by decide⟩
  intro d now hh hn
  rw [fromString_serialize d now hh hn, eq_true_iff]
  exact ⟨⟨rfl, rfl, rfl⟩, rfl, rfl, rfl⟩

/-- C18 at the descriptor with an empty host, id -3 and an empty name. -/
theorem fromString_serialize_eq_witness :
    (ServerInfo.fromString (ServerInfo.fromFields "" "" (-3) 0 0).serialize 5).eq
      (ServerInfo.fromFields "" "" (-3) 0 0) = true ∧
    (ServerInfo.fromString (ServerInfo.fromFields "" "" (-3) 0 0).serialize 5).m_id = -3 :=
  ⟨(fromString_serialize_eq.1 (ServerInfo.fromFields "" "" (-3) 0 0) 5 (by decide)
      (by decide)).1,
    (fromString_serialize_eq.1 (ServerInfo.fromFields "" "" (-3) 0 0) 5 (by decide)
      (by decide)).2.2.1⟩

/-- C19: the descriptor `p` built from any string has a host and a name without colon;
building a descriptor from `p.serialize()` gives a descriptor equal to `p`; and
serializing it again gives `p.serialize()` again. -/
theorem fromString_normalises (s : String) (now now' : Int) :
    ':' ∉ (ServerInfo.fromString s now).m_host.data ∧
    ':' ∉ (ServerInfo.fromString s now).m_name.data ∧
    (ServerInfo.fromString (ServerInfo.fromString s now).serialize now').eq
      (ServerInfo.fromString s now) = true ∧
    (ServerInfo.fromString (ServerInfo.fromString s now).serialize now').serialize =
      (ServerInfo.fromString s now).serialize := by
  obtain ⟨hh, hn⟩ := fromString_colon_free s now
  refine ⟨hh, hn, ?_, ?_⟩
  · rw [fromString_serialize _ now' hh hn, eq_true_iff]
    exact ⟨rfl, rfl, rfl⟩
  · rw [fromString_serialize _ now' hh hn]
    rfl

/-! ## The watchdog join -/

theorem waitLoop_returns (env : WaitEnv) (w : Int) (n : Nat) :
    ∀ (fuel i : Nat), (∀ k < n, env.exited (i + k) = false) → env.exited (i + n) = true →
      n < fuel → waitLoop env (warnTime env w) fuel i = some (scheduleFrom env w n i) := by
  induction n with
  | zero =>
    intro fuel i _ hex hf
    obtain ⟨f, rfl⟩ : ∃ f, fuel = f + 1 := ⟨fuel - 1, by omega⟩
    simp only [Nat.add_zero] at hex
    simp [waitLoop, hex, scheduleFrom]
  | succ n ih =>
    intro fuel i hfail hex hf
    obtain ⟨f, rfl⟩ : ∃ f, fuel = f + 1 := ⟨fuel - 1, by omega⟩
    have h0 : env.exited i = false := by simpa using hfail 0 (by omega)
    have hrec := ih f (i + 1)
      (fun k hk => by have := hfail (k + 1) (by omega); rwa [Nat.add_assoc, Nat.add_comm 1 k])
      (by rwa [Nat.add_assoc, Nat.add_comm 1 n]) (by omega)
    simp only [waitLoop, h0, hrec, scheduleFrom, failedPoll, warnsAtPoll]
    by_cases hw : env.reading (i + 1) > warnTime env w <;> simp [hw]

theorem waitLoop_running (env : WaitEnv) (d : Nat) :
    ∀ (fuel i : Nat), (∀ k < fuel, env.exited (i + k) = false) →
      waitLoop env d fuel i = none := by
  intro fuel
  induction fuel with
  | zero => intro i _; rfl
  | succ f ih =>
    intro i hfail
    have h0 : env.exited i = false := by simpa using hfail 0 (by omega)
    have hrec := ih (i + 1)
      (fun k hk => by have := hfail (k + 1) (by omega); rwa [Nat.add_assoc, Nat.add_comm 1 k])
    simp [waitLoop, h0, hrec]

/-- With a threshold of at least 0, a call whose first `n` polls fail and whose next poll
observes the termination returns with the events of the specification's schedule. -/
theorem waitForThreadAndLog_returns (env : WaitEnv) (w : Int) (hw : 0 ≤ w) (n fuel : Nat)
    (hfail : ∀ k < n, env.exited k = false) (hex : env.exited n = true) (hf : n < fuel) :
    waitForThreadAndLog env w fuel = some (schedule env w n) := by
  have h := waitLoop_returns env w n fuel 0 (by simpa using hfail) (by simpa using hex) hf
  have hw' : w > -1 := by omega
  simp [waitForThreadAndLog, hw', h, schedule]

/-- With a threshold of at least 0, a call has not returned as long as every poll failed. -/
theorem waitForThreadAndLog_running (env : WaitEnv) (w : Int) (hw : 0 ≤ w) (fuel : Nat)
    (hfail : ∀ k < fuel, env.exited k = false) :
    waitForThreadAndLog env w fuel = none := by
  have h := waitLoop_running env (warnTime env w) fuel 0 (by simpa using hfail)
  have hw' : w > -1 := by omega
  simp [waitForThreadAndLog, hw', h]

theorem scheduleFrom_warnings (env : WaitEnv) (w : Int) (n : Nat) :
    ∀ j, ((scheduleFrom env w n j).filter WaitEvent.isLogln).length =
      ((List.range' j n).filter (warnsAtPoll env w)).length := by
  induction n with
  | zero => intro j; simp [scheduleFrom, WaitEvent.isLogln]
  | succ n ih =>
    intro j
    rw [scheduleFrom, List.filter_append, List.length_append, ih (j + 1), List.range'_succ,
      failedPoll]
    by_cases hw : warnsAtPoll env w j = true
    · simp [hw, WaitEvent.isLogln, List.filter_cons]
      omega
    · simp [hw, WaitEvent.isLogln, List.filter_cons]

theorem warnTime_of_nonneg (env : WaitEnv) (w : Int) (hw : 0 ≤ w) (hw32 : w ≤ 2147483647) :
    warnTime env w = (env.reading 0 + w.toNat) % 4294967296 := by
  have : w % 4294967296 = w := Int.emod_eq_of_lt hw (by omega)
  rw [warnTime, this]

theorem scheduleFrom_split (env : WaitEnv) (w : Int) (n : Nat) :
    ∀ j, ∃ init, scheduleFrom env w n j = init ++ [WaitEvent.waitForThreadToExit 1000 true] ∧
      (∀ ev ∈ init, ev ≠ WaitEvent.waitForThreadToExit 1000 true) ∧
      (1 ≤ n → warnsAtPoll env w j = true → WaitEvent.logln (warningLine env j) ∈ init) := by
  induction n with
  | zero =>
    intro j
    exact ⟨[], rfl, by simp, by omega⟩
  | succ n ih =>
    intro j
    obtain ⟨init, h1, h2, _⟩ := ih (j + 1)
    refine ⟨failedPoll env w j ++ init, ?_, ?_, ?_⟩
    · rw [scheduleFrom, h1, List.append_assoc]
    · intro ev hev
      rcases List.mem_append.mp hev with h | h
      · unfold failedPoll at h
        intro e
        subst e
        split at h <;> simp at h
      · exact h2 ev h
    · intro _ hwarn
      apply List.mem_append_left
      simp [failedPoll, hwarn]

/-- C12: for a threshold of at least 0 the deadline is the 32-bit sum of the counter at
entry and the threshold, computed once; a call whose first `n` polls fail returns right
after poll `n` observed the termination, each poll has the timeout 1000, and failed poll
`j` is followed by one warning line exactly when the counter read after it is greater than
the deadline, so the warnings are as many as such polls; and the call has not returned as
long as every poll failed. -/
theorem waitForThreadAndLog_schedule (env : WaitEnv) (w : Int) (hw : 0 ≤ w)
    (hw32 : w ≤ 2147483647) :
    warnTime env w = (env.reading 0 + w.toNat) % 4294967296 ∧
    (∀ n fuel, (∀ k < n, env.exited k = false) → env.exited n = true → n < fuel →
      waitForThreadAndLog env w fuel = some (schedule env w n)) ∧
    (∀ n, ((schedule env w n).filter WaitEvent.isLogln).length =
      ((List.range n).filter
        (fun j => decide (env.reading (j + 1) > warnTime env w))).length) ∧
    (∀ fuel, (∀ k < fuel, env.exited k = false) → waitForThreadAndLog env w fuel = none) := by
  refine ⟨warnTime_of_nonneg env w hw hw32, ?_, ?_, ?_⟩
  · intro n fuel hfail hex hf
    exact waitForThreadAndLog_returns env w hw n fuel hfail hex hf
  · intro n
    have e : (schedule env w n).filter WaitEvent.isLogln =
        (scheduleFrom env w n 0).filter WaitEvent.isLogln := by
      simp [schedule, List.filter_cons, WaitEvent.isLogln]
    rw [e, scheduleFrom_warnings, List.range_eq_range']
    rfl
  · intro fuel hfail
    exact waitForThreadAndLog_running env w hw fuel hfail

/-- C12 at a thread that is gone at the sixth poll, entered at counter 5000 with threshold
3000: the deadline is 8000, the polls after which the counter reads 9000 and 10000 are
followed by a warning, the others are not. -/
theorem waitForThreadAndLog_schedule_witness :
    warnTime slowEnv 3000 = 8000 ∧
    waitForThreadAndLog slowEnv 3000 10 = some
      [WaitEvent.getMillisecondCounter 5000,
       WaitEvent.waitForThreadToExit 1000 false, WaitEvent.getMillisecondCounter 6000,
       WaitEvent.waitForThreadToExit 1000 false, WaitEvent.getMillisecondCounter 7000,
       WaitEvent.waitForThreadToExit 1000 false, WaitEvent.getMillisecondCounter 8000,
       WaitEvent.waitForThreadToExit 1000 false, WaitEvent.getMillisecondCounter 9000,
       WaitEvent.logln "[tag] warning: waiting for thread worker to finish",
       WaitEvent.waitForThreadToExit 1000 false, WaitEvent.getMillisecondCounter 10000,
       WaitEvent.logln "[tag] warning: waiting for thread worker to finish",
       WaitEvent.waitForThreadToExit 1000 true] ∧
    waitForThreadAndLog slowEnv 3000 5 = none :=
  ⟨(waitForThreadAndLog_schedule slowEnv 3000 (by decide) (by decide)).1.trans (by decide),
    ((waitForThreadAndLog_schedule slowEnv 3000 (by decide) (by decide)).2.1 5 10
      (by decide) (by decide) (by decide)).trans (by decide),
    (waitForThreadAndLog_schedule slowEnv 3000 (by decide) (by decide)).2.2.2 5 (by decide)⟩

/-- C13: for a negative threshold the call consists of one `waitForThreadToExit (-1)` and
nothing else: no poll with the timeout 1000, no reading of the counter, no warning line,
whatever the thread and the clock do. -/
theorem waitForThreadAndLog_negative (env : WaitEnv) (w : Int) (hw : w < 0) (fuel : Nat) :
    waitForThreadAndLog env w fuel =
      some [WaitEvent.waitForThreadToExit (-1) (env.exited 0)] ∧
    (∀ tr, waitForThreadAndLog env w fuel = some tr →
      tr.length = 1 ∧ tr.filter WaitEvent.isLogln = [] ∧
      (∀ v, WaitEvent.getMillisecondCounter v ∉ tr) ∧
      (∀ b, WaitEvent.waitForThreadToExit 1000 b ∉ tr)) := by
  have h : waitForThreadAndLog env w fuel =
      some [WaitEvent.waitForThreadToExit (-1) (env.exited 0)] := by
    have hw' : ¬ w > -1 := by omega
    simp [waitForThreadAndLog, hw']
  refine ⟨h, ?_⟩
  intro tr htr
  rw [h] at htr
  cases htr
  simp [WaitEvent.isLogln]

/-- C13 at threshold -1, for a thread whose join returns on the first call and for one that
a poll would see running for a long time. -/
theorem waitForThreadAndLog_negative_witness :
    waitForThreadAndLog slowEnv (-1) 0 = some [WaitEvent.waitForThreadToExit (-1) false] ∧
    waitForThreadAndLog slowEnv (-1) 100 = some [WaitEvent.waitForThreadToExit (-1) false] :=
  ⟨(waitForThreadAndLog_negative slowEnv (-1) (by decide) 0).1,
    (waitForThreadAndLog_negative slowEnv (-1) (by decide) 100).1⟩

/-- C14 fails when the counter wraps: entered at counter `2^32 - 500` with threshold 0, a
thread that is still running at the first two polls and gone at the third (2500 ms) is
waited for without any warning, since the counter reads 500 and 1500 after the failed
polls. -/
theorem waitForThreadAndLog_zero_counterexample :
    wrapEnv.exited 0 = false ∧
    waitForThreadAndLog wrapEnv 0 10 = some
      [WaitEvent.getMillisecondCounter 4294966796,
       WaitEvent.waitForThreadToExit 1000 false, WaitEvent.getMillisecondCounter 500,
       WaitEvent.waitForThreadToExit 1000 false, WaitEvent.getMillisecondCounter 1500,
       WaitEvent.waitForThreadToExit 1000 true] ∧
    (∀ tr, waitForThreadAndLog wrapEnv 0 10 = some tr → tr.filter WaitEvent.isLogln = []) := by
  refine ⟨by decide, by decide, ?_⟩
  intro tr htr
  have h : waitForThreadAndLog wrapEnv 0 10 = some
      [WaitEvent.getMillisecondCounter 4294966796,
       WaitEvent.waitForThreadToExit 1000 false, WaitEvent.getMillisecondCounter 500,
       WaitEvent.waitForThreadToExit 1000 false, WaitEvent.getMillisecondCounter 1500,
       WaitEvent.waitForThreadToExit 1000 true] := by decide
  rw [h] at htr
  cases htr
  decide

/-- C14, amended: with threshold 0, when the first poll fails, a later poll observes the
termination, and the counter read after the first failed poll is greater than the counter
read at entry, the call returns, its last event is the poll that observed the termination,
no earlier poll observed it, and a warning line was written before; and the call has not
returned as long as every poll failed. -/
theorem waitForThreadAndLog_zero (env : WaitEnv) (n fuel : Nat)
    (h0 : env.exited 0 = false) (hfail : ∀ k < n, env.exited k = false)
    (hex : env.exited n = true) (hf : n < fuel) (hclock : env.reading 0 < env.reading 1) :
    (∃ init, waitForThreadAndLog env 0 fuel =
        some (init ++ [WaitEvent.waitForThreadToExit 1000 true]) ∧
      WaitEvent.logln (warningLine env 0) ∈ init ∧
      (∀ ev ∈ init, ev ≠ WaitEvent.waitForThreadToExit 1000 true)) ∧
    (∀ f, (∀ k < f, env.exited k = false) → waitForThreadAndLog env 0 f = none) := by
  have hn : 1 ≤ n := by
    rcases Nat.eq_zero_or_pos n with h | h
    · rw [h, h0] at hex; cases hex
    · exact h
  have hwarn : warnsAtPoll env 0 0 = true := by
    have hlt : env.reading 0 < 4294967296 := Nat.mod_lt _ (by decide)
    have : warnTime env 0 = env.reading 0 := by
      simp [warnTime, Nat.mod_eq_of_lt hlt]
    simp [warnsAtPoll, this, hclock]
  obtain ⟨init, h1, h2, h3⟩ := scheduleFrom_split env 0 n 0
  refine ⟨⟨WaitEvent.getMillisecondCounter (env.reading 0) :: init, ?_, ?_, ?_⟩, ?_⟩
  · rw [waitForThreadAndLog_returns env 0 (le_refl 0) n fuel hfail hex hf, schedule, h1]
    rfl
  · exact List.mem_cons_of_mem _ (h3 hn hwarn)
  · intro ev hev
    rcases List.mem_cons.mp hev with h | h
    · rw [h]; intro e; cases e
    · exact h2 ev h
  · intro f hfail'
    exact waitForThreadAndLog_running env 0 (le_refl 0) f hfail'

/-- C14, amended, at a thread entered at counter 5000 that is gone at the sixth poll. -/
theorem waitForThreadAndLog_zero_witness :
    slowEnv.exited 0 = false ∧ slowEnv.reading 0 < slowEnv.reading 1 ∧
    ∃ init, waitForThreadAndLog slowEnv 0 10 =
        some (init ++ [WaitEvent.waitForThreadToExit 1000 true]) ∧
      WaitEvent.logln (warningLine slowEnv 0) ∈ init ∧
      (∀ ev ∈ init, ev ≠ WaitEvent.waitForThreadToExit 1000 true) :=
  ⟨by decide, by decide,
    (waitForThreadAndLog_zero slowEnv 5 10 (by decide) (by decide) (by decide) (by decide)
      (by decide)).1⟩

/-- C20: the deadline is the sum of the counter at entry and the threshold modulo `2^32`
and the counter read after a poll is a 32-bit value; when the counter at entry plus the
threshold is below `2^32` and the counter has not wrapped at a failed poll, a warning
after that poll means that more than the threshold has elapsed; entered at counter
`2^32 - 2500` with threshold 3000 the deadline is 500 and the first failed poll, 1000 ms
after entry, is already followed by a warning. -/
theorem waitForThreadAndLog_wrap (env : WaitEnv) (w : Int) (hw : 0 ≤ w)
    (hw32 : w ≤ 2147483647) :
    warnTime env w = (env.counter 0 % 4294967296 + w.toNat) % 4294967296 ∧
    (∀ n fuel, (∀ k < n, env.exited k = false) → env.exited n = true → n < fuel →
      waitForThreadAndLog env w fuel = some (schedule env w n)) ∧
    (∀ (c0 : Nat) (elapsed : Nat → Nat), env.counter 0 = c0 →
      (∀ j, env.counter (j + 1) = c0 + elapsed j) → c0 + w.toNat < 4294967296 →
      ∀ j, c0 + elapsed j < 4294967296 → warnsAtPoll env w j = true → w.toNat < elapsed j) ∧
    (warnTime earlyEnv 3000 = 500 ∧
      waitForThreadAndLog earlyEnv 3000 10 = some
        [WaitEvent.getMillisecondCounter 4294964796,
         WaitEvent.waitForThreadToExit 1000 false, WaitEvent.getMillisecondCounter 4294965796,
         WaitEvent.logln "[tag] warning: waiting for thread worker to finish",
         WaitEvent.waitForThreadToExit 1000 false, WaitEvent.getMillisecondCounter 4294966796,
         WaitEvent.logln "[tag] warning: waiting for thread worker to finish",
         WaitEvent.waitForThreadToExit 1000 true]) := by
  refine ⟨warnTime_of_nonneg env w hw hw32, ?_, ?_, by decide, by decide⟩
  · intro n fuel hfail hex hf
    exact waitForThreadAndLog_returns env w hw n fuel hfail hex hf
  · intro c0 elapsed hc0 hc hsum j hj hwarn
    have hwt := warnTime_of_nonneg env w hw hw32
    have hc0lt : c0 < 4294967296 := by omega
    simp only [warnsAtPoll, decide_eq_true_eq, hwt, WaitEnv.reading, hc0, hc j,
      Nat.mod_eq_of_lt hj, Nat.mod_eq_of_lt hc0lt, Nat.mod_eq_of_lt hsum] at hwarn
    omega

/-- C20 at a thread entered at counter 5000 with threshold 3000: the fourth failed poll,
4000 ms after entry, is followed by a warning. -/
theorem waitForThreadAndLog_wrap_witness :
    warnsAtPoll slowEnv 3000 3 = true ∧ (3000 : Int).toNat < 1000 * (3 + 1) :=
  ⟨by decide,
    (waitForThreadAndLog_wrap slowEnv 3000 (by decide) (by decide)).2.2.1 5000
      (fun j => 1000 * (j + 1)) rfl (fun _ => rfl) (by decide) 3 (by decide) (by decide)⟩

/-! ## The call on the message thread -/

namespace callOnMessageThread

theorem inv_init {Mem : Type} (fn : Mem → Mem) (mem0 : Mem) : Inv fn mem0 (init mem0) := by
  simp [Inv, init, State.ranFn]

set_option maxHeartbeats 2000000 in
theorem inv_step_caller {Mem : Type} (fn : Mem → Mem) (mem0 : Mem) (s : State Mem)
    (h : Inv fn mem0 s) : Inv fn mem0 (step fn false Action.caller s) := by
  rcases s with ⟨c, w, q, _ | _ | _, d, r, mem⟩ <;>
    cases c <;> cases w <;> cases q <;> cases d <;>
      simp_all [Inv, step, State.ranFn]

set_option maxHeartbeats 2000000 in
theorem inv_step_messageLoop {Mem : Type} (fn : Mem → Mem) (mem0 : Mem) (s : State Mem)
    (h : Inv fn mem0 s) : Inv fn mem0 (step fn false Action.messageLoop s) := by
  rcases s with ⟨c, w, q, _ | _ | _, d, r, mem⟩ <;>
    cases c <;> cases w <;> cases q <;> cases d <;>
      simp_all [Inv, step, State.ranFn]

set_option maxHeartbeats 2000000 in
theorem inv_step_spuriousWakeup {Mem : Type} (fn : Mem → Mem) (mem0 : Mem) (s : State Mem)
    (h : Inv fn mem0 s) : Inv fn mem0 (step fn false Action.spuriousWakeup s) := by
  rcases s with ⟨c, w, q, _ | _ | _, d, r, mem⟩ <;>
    cases c <;> cases w <;> cases q <;> cases d <;>
      simp_all [Inv, step, State.ranFn]

theorem inv_step {Mem : Type} (fn : Mem → Mem) (mem0 : Mem) (a : Action) (s : State Mem)
    (h : Inv fn mem0 s) : Inv fn mem0 (step fn false a s) := by
  cases a
  · exact inv_step_caller fn mem0 s h
  · exact inv_step_messageLoop fn mem0 s h
  · exact inv_step_spuriousWakeup fn mem0 s h

theorem inv_run {Mem : Type} (fn : Mem → Mem) (mem0 : Mem) (schedule : List Action) :
    ∀ s : State Mem, Inv fn mem0 s → Inv fn mem0 (run fn false schedule s) := by
  induction schedule with
  | nil => intro s h; exact h
  | cons a rest ih => intro s h; exact ih _ (inv_step fn mem0 a s h)

set_option maxHeartbeats 4000000 in
theorem inv_fair_returns {Mem : Type} (fn : Mem → Mem) (mem0 : Mem) (s : State Mem)
    (h : Inv fn mem0 s) : (run fn false fairSchedule s).caller = CallerPc.returned := by
  rcases s with ⟨c, w, q, _ | _ | _, d, r, mem⟩ <;>
    cases c <;> cases w <;> cases q <;> cases d <;>
      simp_all [Inv, run, step, fairSchedule, State.ranFn]

theorem inv_returned_stable {Mem : Type} (fn : Mem → Mem) (mem0 : Mem) (s : State Mem)
    (h : Inv fn mem0 s) (hr : s.caller = CallerPc.returned) (a : Action) :
    step fn false a s = s := by
  obtain ⟨_, _, h3, _, _, _, _, _, h9, _, _⟩ := h
  obtain ⟨hd, hw⟩ := h9 hr
  have hq := (h3 hd).2
  cases a <;> simp [step, hr, hw, hq]

theorem step_fnRuns {Mem : Type} (fn : Mem → Mem) (b : Bool) (a : Action) (s : State Mem)
    (h : (step fn b a s).fnRuns ≠ s.fnRuns) : a = Action.messageLoop := by
  cases a with
  | messageLoop => rfl
  | caller =>
    exfalso; apply h
    unfold step
    rcases hc : s.caller <;> simp only [] <;> split <;> rfl
  | spuriousWakeup =>
    exfalso; apply h
    unfold step
    simp only []
    split <;> rfl

theorem invSelf_init {Mem : Type} (mem0 : Mem) : InvSelf mem0 (init mem0) := by
  simp [InvSelf, init]

theorem invSelf_step {Mem : Type} (fn : Mem → Mem) (mem0 : Mem) (a : Action) (s : State Mem)
    (h : InvSelf mem0 s) : InvSelf mem0 (step fn true a s) := by
  rcases s with ⟨c, w, q, m, d, r, mem⟩
  obtain ⟨hw, hd, hr, hm, hc⟩ := h
  simp only at hw hd hr hm hc
  subst hw hd hr hm
  cases a <;> cases c <;> simp_all [InvSelf, step]
  split <;> simp_all

theorem invSelf_run {Mem : Type} (fn : Mem → Mem) (mem0 : Mem) (schedule : List Action) :
    ∀ s : State Mem, InvSelf mem0 s → InvSelf mem0 (run fn true schedule s) := by
  induction schedule with
  | nil => intro s h; exact h
  | cons a rest ih => intro s h; exact ih _ (invSelf_step fn mem0 a s h)

/-- C15 fails on the code: called from the message thread, with `fn` adding 1 to a counter
that is 0, after a schedule that lets the caller, the message loop and the caller again
run, the call has not returned and `fn` has not run: the caller sleeps in `cv.wait`, the
lambda is still in the queue, and neither the caller nor the message loop can take a
step. -/
theorem from_message_thread_counterexample :
    (run (fun n : Nat => n + 1) true fairSchedule (init 0)).caller = CallerPc.blocked ∧
    (run (fun n : Nat => n + 1) true fairSchedule (init 0)).queued = true ∧
    (run (fun n : Nat => n + 1) true fairSchedule (init 0)).done = false ∧
    (run (fun n : Nat => n + 1) true fairSchedule (init 0)).fnRuns = 0 ∧
    (run (fun n : Nat => n + 1) true fairSchedule (init 0)).mem = 0 ∧
    (run (fun n : Nat => n + 1) true (fairSchedule ++ [Action.caller]) (init 0)).caller =
      CallerPc.blocked ∧
    (run (fun n : Nat => n + 1) true (fairSchedule ++ [Action.messageLoop]) (init 0)).wrapper =
      WrapperPc.idle := by
  decide

/-- C15, amended: `callOnMessageThread` invoked from the message thread itself never
returns: on every schedule the call has not returned, `fn` has not run, `done` is false and
the lambda has not been started. -/
theorem from_message_thread_blocks {Mem : Type} (fn : Mem → Mem) (mem0 : Mem)
    (schedule : List Action) :
    (run fn true schedule (init mem0)).caller ≠ CallerPc.returned ∧
    (run fn true schedule (init mem0)).fnRuns = 0 ∧
    (run fn true schedule (init mem0)).done = false ∧
    (run fn true schedule (init mem0)).wrapper = WrapperPc.idle ∧
    (run fn true schedule (init mem0)).mem = mem0 := by
  obtain ⟨hw, hd, hr, hm, hc⟩ := invSelf_run fn mem0 schedule (init mem0) (invSelf_init mem0)
  exact ⟨hc, hr, hd, hw, hm⟩

/-- C16: for a call made from another thread than the message thread, on every schedule:
`fn` has run at most once; `fn` runs only in a step of the message loop; when the call has
returned, `fn` has run exactly once, `done` is set, the lambda has been left and the memory
is the one `fn` wrote; after the return no step changes anything; and from wherever the
schedule has led, letting the caller, the message loop and the caller run makes the call
return. -/
theorem from_other_thread_runs_once {Mem : Type} (fn : Mem → Mem) (mem0 : Mem)
    (schedule : List Action) :
    (run fn false schedule (init mem0)).fnRuns ≤ 1 ∧
    (∀ (a : Action) (s : State Mem), (step fn false a s).fnRuns ≠ s.fnRuns →
      a = Action.messageLoop) ∧
    ((run fn false schedule (init mem0)).caller = CallerPc.returned →
      (run fn false schedule (init mem0)).fnRuns = 1 ∧
      (run fn false schedule (init mem0)).done = true ∧
      (run fn false schedule (init mem0)).wrapper = WrapperPc.idle ∧
      (run fn false schedule (init mem0)).mem = fn mem0 ∧
      ∀ a, step fn false a (run fn false schedule (init mem0)) =
        run fn false schedule (init mem0)) ∧
    (run fn false fairSchedule (run fn false schedule (init mem0))).caller =
      CallerPc.returned ∧
    (run fn false fairSchedule (run fn false schedule (init mem0))).fnRuns = 1 := by
  have hinv := inv_run fn mem0 schedule (init mem0) (inv_init fn mem0)
  have hfair := inv_fair_returns fn mem0 _ hinv
  have hinv' := inv_run fn mem0 fairSchedule _ hinv
  have key : ∀ s : State Mem, Inv fn mem0 s → s.caller = CallerPc.returned →
      s.fnRuns = 1 ∧ s.done = true ∧ s.wrapper = WrapperPc.idle ∧ s.mem = fn mem0 := by
    intro s hs hr
    obtain ⟨h1, h2, _, _, _, _, _, _, h9, _, _⟩ := hs
    obtain ⟨hd, hw⟩ := h9 hr
    have hran : s.ranFn = true := by simp [State.ranFn, hd]
    rw [hran] at h1 h2
    exact ⟨by simpa using h1, hd, hw, by simpa using h2⟩
  refine ⟨?_, fun a s h => step_fnRuns fn false a s h, ?_, hfair, (key _ hinv' hfair).1⟩
  · have h1 := hinv.1
    split at h1 <;> omega
  · intro hr
    obtain ⟨k1, k2, k3, k4⟩ := key _ hinv hr
    exact ⟨k1, k2, k3, k4, fun a => inv_returned_stable fn mem0 _ hinv hr a⟩

/-- C16 with `fn` adding 1 to a counter that is 0, on the schedule that lets the caller,
the message loop and the caller run: the call has returned, `fn` has run once and the
counter is 1. -/
theorem from_other_thread_runs_once_witness :
    (run (fun n : Nat => n + 1) false fairSchedule (init 0)).caller = CallerPc.returned ∧
    (run (fun n : Nat => n + 1) false fairSchedule (init 0)).fnRuns = 1 ∧
    (run (fun n : Nat => n + 1) false fairSchedule (init 0)).mem = 1 :=
  ⟨by decide,
    ((from_other_thread_runs_once (fun n : Nat => n + 1) 0 fairSchedule).2.2.1
      (by decide)).1,
    ((from_other_thread_runs_once (fun n : Nat => n + 1) 0 fairSchedule).2.2.1
      (by decide)).2.2.2.1⟩

end callOnMessageThread

end e47
